import Mathlib

/-!
Verification of the response-parsing and coverage pipeline of `chat2.0.py`
(the "Smart Interview Sorter").

Python strings are modelled as Lean `String`s; the Python primitives the
program uses (`str.strip`, `str.split` on a one-character separator,
`c in s`, `"\n".join`) are embedded as executable functions on the
underlying character lists.  The parsed rows (Python dicts collected into a
`pandas.DataFrame`) are modelled as a structure whose fields stand for the
source's column keys, and the resulting frame as the list of its rows in
order.
The Streamlit submit handler is modelled as a pure transition function on
the session state, with the two document extractions and the remote model
call supplied as oracle outcomes.
-/

namespace Chat

/-- Whitespace predicate of Python `str.strip`: code points U+0009–U+000D,
U+001C–U+001F, space, and the further Unicode whitespace code points
(NEL, NBSP, OGHAM SPACE MARK, the U+2000–U+200A block, LINE SEPARATOR,
PARAGRAPH SEPARATOR, NARROW NBSP, MMSP, IDEOGRAPHIC SPACE). -/
def pyIsSpace (c : Char) : Bool :=
  decide ((9 ≤ c.toNat ∧ c.toNat ≤ 13) ∨ (28 ≤ c.toNat ∧ c.toNat ≤ 31) ∨
    c.toNat ∈ [32, 133, 160, 5760, 8232, 8233, 8239, 8287, 12288] ∨
    (8192 ≤ c.toNat ∧ c.toNat ≤ 8202))

/-- Character-list form of Python `str.strip()`: drop whitespace from both
ends. -/
def stripList (l : List Char) : List Char :=
  ((l.dropWhile pyIsSpace).reverse.dropWhile pyIsSpace).reverse

/-- Python `line.strip()`. -/
def pyStrip (s : String) : String := String.mk (stripList s.data)

/-- Character-list form of Python `s.split(sep)` for a one-character
separator: every occurrence of `sep` ends a piece, empty pieces are kept,
and the empty list yields the single empty piece (`"".split(c) == [""]`). -/
def pySplitChar (sep : Char) : List Char → List (List Char)
  | [] => [[]]
  | c :: rest =>
    let r := pySplitChar sep rest
    if c = sep then [] :: r else (c :: r.headD []) :: r.tail

/-- Python `s.split(sep)` for a one-character separator. -/
def pySplit (s : String) (sep : Char) : List String :=
  (pySplitChar sep s.data).map String.mk

/-- Python `c in s` for a single character `c`. -/
def pyContains (s : String) (c : Char) : Bool := s.data.contains c

/-- Character-list form of Python `sep.join(pieces)` for a one-character
separator. -/
def pyJoinChar (sep : Char) : List (List Char) → List Char
  | [] => []
  | [q] => q
  | q :: r :: t => q ++ sep :: pyJoinChar sep (r :: t)

/-- Python `sep.join(qs)` for a one-character separator string. -/
def pyJoin (sep : Char) (qs : List String) : String :=
  String.mk (pyJoinChar sep (qs.map String.data))

/-- One parsed row of the result table (`parse_response` appends dicts with
four keys; a `pandas.DataFrame` built from them keeps them in order).
The fields render the source's column keys: `question` is 大纲问题 (outline
question), `summary` is 匹配内容摘要 (matched-content summary), `coverage`
is 覆盖情况 (coverage status), `followUp` is 建议补问 (suggested
follow-up). -/
structure CoverageRecord where
  question : String
  summary : String
  coverage : String
  followUp : String
deriving DecidableEq

/-- Filter of the line comprehension in `parse_response`:
`if line.strip() and '|' in line`. -/
def lineFilter (line : String) : Bool :=
  pyStrip line != "" && pyContains line '|'

/-- Field list of one line: `[part.strip() for part in line.split('|')]`. -/
def lineParts (line : String) : List String :=
  (pySplit line '|').map pyStrip

/-- Body of the `for line in lines` loop of `parse_response`: at least four
fields give a full record (later fields ignored), exactly three give a
record whose follow-up is the sentinel `"无"`, fewer give no record.
The Python index accesses `parts[0] … parts[3]` are guarded by the length
tests, so they are rendered with `getD`; `lineToRecord_checked` below keeps
the possibility of an index error observable. -/
def lineToRecord (line : String) : Option CoverageRecord :=
  let parts := lineParts line
  if 4 ≤ parts.length then
    some { question := parts.getD 0 "", summary := parts.getD 1 "",
           coverage := parts.getD 2 "", followUp := parts.getD 3 "" }
  else if parts.length = 3 then
    some { question := parts.getD 0 "", summary := parts.getD 1 "",
           coverage := parts.getD 2 "", followUp := "无" }
  else none

/-- Record built from a line already known to have at least three fields:
the total form of `lineToRecord`, used to state per-line theorems. -/
def lineRecord (line : String) : CoverageRecord :=
  { question := (lineParts line).getD 0 "",
    summary := (lineParts line).getD 1 "",
    coverage := (lineParts line).getD 2 "",
    followUp :=
      if 4 ≤ (lineParts line).length then (lineParts line).getD 3 "" else "无" }

/-- Embedding of `parse_response` (chat2.0.py lines 128–150): keep the
non-blank separator-bearing lines, strip them, and run the field-count
dispatch on each; the resulting rows in reply order form the report. -/
def parse_response (response : String) : List CoverageRecord :=
  (((pySplit response '\n').filter lineFilter).map pyStrip).filterMap lineToRecord

/-- Embedding of `extract_questions_from_outline` (lines 58–62):
`[line.strip() for line in text.split('\n') if line.strip()]`. -/
def extract_questions_from_outline (text : String) : List String :=
  ((pySplit text '\n').filter (fun line => pyStrip line != "")).map pyStrip

/-- Embedding of `results['coverage'].value_counts().get(label, 0)`
(lines 210–214): the number of rows whose coverage cell is exactly `label`. -/
def coverage_counts (report : List CoverageRecord) (label : String) : Nat :=
  (report.filter (fun r => r.coverage == label)).length

/-- Summary numbers displayed by the three metric widgets. -/
structure Metrics where
  total : Nat
  fullCount : Nat
  noneCount : Nat
deriving DecidableEq

/-- Embedding of the metrics block (lines 210–214): total question count,
exact-match count of `"充分"`, exact-match count of `"未覆盖"`. -/
def summarize (report : List CoverageRecord) : Metrics :=
  { total := report.length,
    fullCount := coverage_counts report "充分",
    noneCount := coverage_counts report "未覆盖" }

/-- Exception-aware rendering of the loop body of `parse_response`: the
field accesses `parts[0] … parts[3]` are the only fallible operations, so
they go through `List.get?`, and a missed index would surface as
`Except.error`.  `Except.ok none` is the silent skip of a short line. -/
def lineToRecord_checked (line : String) : Except Unit (Option CoverageRecord) :=
  let parts := lineParts line
  if 4 ≤ parts.length then
    match parts.get? 0, parts.get? 1, parts.get? 2, parts.get? 3 with
    | some a, some b, some c, some d =>
      .ok (some { question := a, summary := b, coverage := c, followUp := d })
    | _, _, _, _ => .error ()
  else if parts.length = 3 then
    match parts.get? 0, parts.get? 1, parts.get? 2 with
    | some a, some b, some c =>
      .ok (some { question := a, summary := b, coverage := c, followUp := "无" })
    | _, _, _ => .error ()
  else .ok none

/-- Exception-aware run of the parse loop over the surviving lines, in
order, propagating any index error. -/
def parse_lines_checked : List String → Except Unit (List CoverageRecord)
  | [] => .ok []
  | line :: rest => do
    let r? ← lineToRecord_checked line
    let tail ← parse_lines_checked rest
    pure (match r? with | some r => r :: tail | none => tail)

/-- Exception-aware embedding of `parse_response`. -/
def parse_response_checked (response : String) : Except Unit (List CoverageRecord) :=
  parse_lines_checked (((pySplit response '\n').filter lineFilter).map pyStrip)

/-- Exception-aware embedding of `extract_questions_from_outline`: its body
(`split`, `strip`, the comprehension filter) contains no fallible
operation, so the embedding is the pure result. -/
def extract_questions_checked (text : String) : Except Unit (List String) :=
  .ok (extract_questions_from_outline text)

/-- Outcome of one `extract_text_from_file` call: the returned text and
whether an internal exception was caught (in which case the function showed
an error message and still returned the text accumulated so far, possibly
empty). -/
structure ExtractOutcome where
  text : String
  errored : Bool
deriving DecidableEq

/-- User-visible messages the submit path can emit, in source order:
the missing-file warning (line 181), the missing-key warning (line 183),
the extraction error (line 52), the progress info (line 194), and the API
error (lines 70, 122, 125). -/
inductive Msg where
  | warnUploadBoth
  | warnMissingKey
  | errFileProcessing
  | infoAnalyzing
  | errApi
deriving DecidableEq

/-- Messages emitted by one `extract_text_from_file` call. -/
def extract_msgs (o : ExtractOutcome) : List Msg :=
  if o.errored then [.errFileProcessing] else []

/-- Session state (`st.session_state`): processed flag, parsed results,
extracted transcript text, outline question list. -/
structure SessionState where
  processed : Bool
  results : Option (List CoverageRecord)
  interview_text : String
  outline_questions : List String
deriving DecidableEq

/-- Embedding of `analyze_with_deepseek` (lines 64–126) around the remote
call, whose outcome (`some content` for HTTP 200, `none` for a non-200
status or transport exception) is an oracle: returns the emitted messages,
whether the remote request was issued, and the reply passed back. -/
def analyze_with_deepseek (api_key : String) (remote : Option String) :
    List Msg × Bool × Option String :=
  if api_key = "" then ([.errApi], false, none)
  else
    match remote with
    | some content => ([], true, some content)
    | none => ([.errApi], true, none)

/-- Embedding of the submit handler (lines 179–203): on missing files or a
missing key it only warns; otherwise it writes the extracted transcript and
outline questions into the session state, calls `analyze_with_deepseek`,
and on a reply stores the parsed results and sets `processed`.  Returns the
new state, the emitted messages in order, and whether the remote call was
issued. -/
def submit_handler (interview_file outline_file : Option ExtractOutcome)
    (api_key : String) (remote : Option String) (s : SessionState) :
    SessionState × List Msg × Bool :=
  match interview_file, outline_file with
  | some iv, some ov =>
    if api_key = "" then (s, [.warnMissingKey], false)
    else
      let s2 : SessionState :=
        { s with interview_text := iv.text,
                 outline_questions := extract_questions_from_outline ov.text }
      let a := analyze_with_deepseek api_key remote
      let msgs := extract_msgs iv ++ extract_msgs ov ++ [.infoAnalyzing] ++ a.1
      match a.2.2 with
      | some reply =>
        ({ s2 with results := some (parse_response reply), processed := true },
         msgs, a.2.1)
      | none => (s2, msgs, a.2.1)
  | _, _ => (s, [.warnUploadBoth], false)

/-! Basic lemmas about the embedded Python string primitives. -/

theorem mk_data (s : String) : String.mk s.data = s := by
  cases s; rfl

theorem pySplitChar_ne_nil (sep : Char) (l : List Char) : pySplitChar sep l ≠ [] := by
  induction l with
  | nil => simp [pySplitChar]
  | cons c rest ih => simp only [pySplitChar]; split <;> simp

theorem length_pySplitChar (sep : Char) (l : List Char) :
    (pySplitChar sep l).length = l.count sep + 1 := by
  induction l with
  | nil => simp [pySplitChar]
  | cons c rest ih =>
    have hne := pySplitChar_ne_nil sep rest
    by_cases h : c = sep
    · simp [pySplitChar, h, List.count_cons, ih]
    · have htail : (pySplitChar sep rest).tail.length =
          (pySplitChar sep rest).length - 1 := List.length_tail _
      have hpos : 0 < (pySplitChar sep rest).length := List.length_pos.mpr hne
      have hcount : (c :: rest).count sep = rest.count sep := by
        simp [List.count_cons, h]
      simp only [pySplitChar, if_neg h, List.length_cons, htail, ih, hcount]
      omega

theorem pySplitChar_of_not_mem {sep : Char} {l : List Char} (h : sep ∉ l) :
    pySplitChar sep l = [l] := by
  induction l with
  | nil => rfl
  | cons c rest ih =>
    have hc : c ≠ sep := fun hceq => h (hceq ▸ List.mem_cons_self c rest)
    have hrest : sep ∉ rest := fun hm => h (List.mem_cons_of_mem c hm)
    simp [pySplitChar, if_neg hc, ih hrest]

theorem pySplitChar_append {sep : Char} {l₁ : List Char} (l₂ : List Char)
    (h : sep ∉ l₁) :
    pySplitChar sep (l₁ ++ sep :: l₂) = l₁ :: pySplitChar sep l₂ := by
  induction l₁ with
  | nil => simp [pySplitChar]
  | cons c rest ih =>
    have hc : c ≠ sep := fun hceq => h (hceq ▸ List.mem_cons_self c rest)
    have hrest : sep ∉ rest := fun hm => h (List.mem_cons_of_mem c hm)
    simp [pySplitChar, if_neg hc, ih hrest]

theorem pySplitChar_pyJoinChar (sep : Char) :
    ∀ qs : List (List Char), qs ≠ [] → (∀ q ∈ qs, sep ∉ q) →
      pySplitChar sep (pyJoinChar sep qs) = qs
  | [], h, _ => absurd rfl h
  | [q], _, hq => by
    simp [pyJoinChar, pySplitChar_of_not_mem (hq q (by simp))]
  | q :: r :: t, _, hq => by
    show pySplitChar sep (q ++ sep :: pyJoinChar sep (r :: t)) = q :: r :: t
    rw [pySplitChar_append _ (hq q (by simp))]
    rw [pySplitChar_pyJoinChar sep (r :: t) (by simp)
      (fun x hx => hq x (List.mem_cons_of_mem q hx))]

theorem dropWhile_eq_self_of_all {p : Char → Bool} {l : List Char}
    (h : ∀ c ∈ l, p c = false) : l.dropWhile p = l := by
  cases l with
  | nil => rfl
  | cons c rest => simp [List.dropWhile_cons, h c (by simp)]

theorem stripList_eq_self {l : List Char} (h : ∀ c ∈ l, pyIsSpace c = false) :
    stripList l = l := by
  unfold stripList
  rw [dropWhile_eq_self_of_all h,
    dropWhile_eq_self_of_all (fun c hc => h c (List.mem_reverse.mp hc)),
    List.reverse_reverse]

theorem count_dropWhile {p : Char → Bool} {c : Char} (hc : p c = false)
    (l : List Char) : (l.dropWhile p).count c = l.count c := by
  conv_rhs => rw [← List.takeWhile_append_dropWhile p l]
  rw [List.count_append]
  have h0 : (l.takeWhile p).count c = 0 := by
    rw [List.count_eq_zero]
    intro hm
    have := List.mem_takeWhile_imp hm
    simp [hc] at this
  omega

theorem count_stripList {c : Char} (hc : pyIsSpace c = false) (l : List Char) :
    (stripList l).count c = l.count c := by
  unfold stripList
  rw [List.count_reverse, count_dropWhile hc, List.count_reverse,
    count_dropWhile hc]

theorem data_pyStrip (s : String) : (pyStrip s).data = stripList s.data := rfl

theorem length_lineParts (line : String) :
    (lineParts line).length = line.data.count '|' + 1 := by
  unfold lineParts pySplit
  simp [List.length_map, length_pySplitChar]

theorem count_pipe_pyStrip (line : String) :
    (pyStrip line).data.count '|' = line.data.count '|' := by
  rw [data_pyStrip]
  exact count_stripList (by decide) line.data

theorem length_lineParts_pyStrip (line : String) :
    (lineParts (pyStrip line)).length = line.data.count '|' + 1 := by
  rw [length_lineParts, count_pipe_pyStrip]

theorem pyStrip_ne_empty_of_pipe {line : String}
    (h : 1 ≤ line.data.count '|') : pyStrip line ≠ "" := by
  intro he
  have hd : (pyStrip line).data = [] := by rw [he]
  rw [data_pyStrip] at hd
  have hcnt := count_stripList (c := '|') (by decide) line.data
  rw [hd] at hcnt
  simp at hcnt
  omega

theorem lineFilter_eq_true_of {line : String} (h : 1 ≤ line.data.count '|') :
    lineFilter line = true := by
  have h1 : pyStrip line ≠ "" := pyStrip_ne_empty_of_pipe h
  have h2 : '|' ∈ line.data := by
    by_contra hm
    rw [List.count_eq_zero.mpr hm] at h; omega
  simp [lineFilter, pyContains, bne_iff_ne, h1, List.elem_iff, h2]

theorem lineFilter_eq_false_of_no_pipe {line : String}
    (h : line.data.count '|' = 0) : lineFilter line = false := by
  have hm : '|' ∉ line.data := fun hmem => by
    have := List.count_eq_zero.mp h
    exact this hmem
  simp [lineFilter, pyContains, List.elem_iff, hm]

theorem lineFilter_eq_false_of_blank {line : String} (h : pyStrip line = "") :
    lineFilter line = false := by
  simp [lineFilter, h]

theorem lineToRecord_of_ge3 {line : String}
    (h : 3 ≤ (lineParts line).length) :
    lineToRecord line = some (lineRecord line) := by
  by_cases h4 : 4 ≤ (lineParts line).length
  · simp [lineToRecord, lineRecord, h4]
  · have h3 : (lineParts line).length = 3 := by omega
    simp [lineToRecord, lineRecord, h4, h3]

theorem lineToRecord_of_le2 {line : String}
    (h : (lineParts line).length ≤ 2) : lineToRecord line = none := by
  have h4 : ¬ 4 ≤ (lineParts line).length := by omega
  have h3 : (lineParts line).length ≠ 3 := by omega
  simp [lineToRecord, h4, h3]

theorem parse_response_single {line : String} (hnl : '\n' ∉ line.data) :
    parse_response line =
      if lineFilter line then (lineToRecord (pyStrip line)).toList else [] := by
  unfold parse_response pySplit
  rw [pySplitChar_of_not_mem hnl, List.map_cons, List.map_nil, mk_data]
  by_cases h : lineFilter line
  · rw [List.filter_cons_of_pos h, List.filter_nil, List.map_cons, List.map_nil]
    cases hr : lineToRecord (pyStrip line) <;> simp [List.filterMap_cons, hr, h]
  · rw [List.filter_cons_of_neg (by simp [h]), List.filter_nil]
    simp [h]

theorem pyStrip_eq_self {q : String} (h : ∀ c ∈ q.data, pyIsSpace c = false) :
    pyStrip q = q := by
  unfold pyStrip
  rw [stripList_eq_self h, mk_data]

theorem pySplit_pyJoin {qs : List String} (hne : qs ≠ [])
    (h : ∀ q ∈ qs, '\n' ∉ q.data) : pySplit (pyJoin '\n' qs) '\n' = qs := by
  unfold pySplit pyJoin
  rw [show (String.mk (pyJoinChar '\n' (qs.map String.data))).data
      = pyJoinChar '\n' (qs.map String.data) from rfl]
  rw [pySplitChar_pyJoinChar '\n' (qs.map String.data) (by simpa using hne)
    (by intro q hq; obtain ⟨x, hx, rfl⟩ := List.mem_map.mp hq; exact h x hx)]
  rw [List.map_map]
  exact (List.map_congr_left fun a _ => mk_data a).trans (List.map_id qs)

theorem parse_lines_eq (ls : List String) :
    ((ls.filter lineFilter).map pyStrip).filterMap lineToRecord =
      (ls.filter
        (fun line => pyStrip line != "" && decide (2 ≤ line.data.count '|'))).map
        (fun line => lineRecord (pyStrip line)) := by
  induction ls with
  | nil => rfl
  | cons line rest ih =>
    by_cases h0 : pyStrip line = ""
    · have hf : lineFilter line = false := lineFilter_eq_false_of_blank h0
      have hc : (pyStrip line != "" && decide (2 ≤ line.data.count '|')) = false := by
        simp [h0]
      simp [List.filter_cons, hf, hc, ih]
    · by_cases h2 : 2 ≤ line.data.count '|'
      · have hf : lineFilter line = true := lineFilter_eq_true_of (by omega)
        have hc : (pyStrip line != "" && decide (2 ≤ line.data.count '|')) = true := by
          simp [bne_iff_ne, h0, h2]
        have hlen : 3 ≤ (lineParts (pyStrip line)).length := by
          rw [length_lineParts_pyStrip]; omega
        simp [List.filter_cons, hf, hc, List.filterMap_cons,
          lineToRecord_of_ge3 hlen, ih]
      · have hc : (pyStrip line != "" && decide (2 ≤ line.data.count '|')) = false := by
          simp [h2]
        by_cases h1 : 1 ≤ line.data.count '|'
        · have hf : lineFilter line = true := lineFilter_eq_true_of h1
          have hlen : (lineParts (pyStrip line)).length ≤ 2 := by
            rw [length_lineParts_pyStrip]; omega
          simp [List.filter_cons, hf, hc, List.filterMap_cons,
            lineToRecord_of_le2 hlen, ih]
        · have hf : lineFilter line = false :=
            lineFilter_eq_false_of_no_pipe (by omega)
          simp [List.filter_cons, hf, hc, ih]

theorem lineToRecord_checked_eq (line : String) :
    lineToRecord_checked line = .ok (lineToRecord line) := by
  rcases hp : lineParts line with _ | ⟨a, _ | ⟨b, _ | ⟨c, _ | ⟨d, t⟩⟩⟩⟩ <;>
    simp [lineToRecord_checked, lineToRecord, hp]

theorem parse_lines_checked_eq (ls : List String) :
    parse_lines_checked ls = .ok (ls.filterMap lineToRecord) := by
  induction ls with
  | nil => rfl
  | cons line rest ih =>
    simp only [parse_lines_checked, lineToRecord_checked_eq, ih]
    cases h : lineToRecord line <;>
      simp [List.filterMap_cons, h, Except.bind, bind, pure, Except.pure]

/-! Claim theorems. -/

/-- C1: every reply line that, after trimming, splits on `'|'` into at
least four trimmed fields yields exactly one `CoverageRecord` made of the
first four fields (question, summary, coverage, follow-up); fields beyond
the fourth are silently ignored and cause no error. -/
theorem parse_ge4_takes_first_four (line : String) (hnl : '\n' ∉ line.data)
    (h4 : 4 ≤ (lineParts (pyStrip line)).length) :
    parse_response line =
      [{ question := (lineParts (pyStrip line)).getD 0 "",
         summary := (lineParts (pyStrip line)).getD 1 "",
         coverage := (lineParts (pyStrip line)).getD 2 "",
         followUp := (lineParts (pyStrip line)).getD 3 "" }] := by
  have hcnt := length_lineParts_pyStrip line
  rw [parse_response_single hnl, if_pos (lineFilter_eq_true_of (by omega)),
    lineToRecord_of_ge3 (by omega)]
  simp [lineRecord, h4]

/-- Witness for C1 at a concrete five-field line. -/
theorem parse_ge4_takes_first_four_witness :
    parse_response "q1 | s1 | 充分 | f1 | extra" =
      [{ question := "q1", summary := "s1", coverage := "充分",
         followUp := "f1" }] :=
  (parse_ge4_takes_first_four "q1 | s1 | 充分 | f1 | extra" (by decide)
    (by decide)).trans (by decide)

/-- C2 counterexample: on a three-field line the code fills the follow-up
with the string `"无"`, which is not the literal placeholder `"none"` the
claim names. -/
theorem parse_eq3_followUp_not_ascii_none :
    ¬ (∀ r ∈ parse_response "Q1 | summary text | 充分",
        r.followUp = "none") := by
  decide

/-- C2 amended: every reply line that splits into exactly three trimmed
fields yields a record of those fields whose follow-up is the sentinel
`"无"` (the source's word for "none"). -/
theorem parse_eq3_followUp_sentinel (line : String) (hnl : '\n' ∉ line.data)
    (h3 : (lineParts (pyStrip line)).length = 3) :
    parse_response line =
      [{ question := (lineParts (pyStrip line)).getD 0 "",
         summary := (lineParts (pyStrip line)).getD 1 "",
         coverage := (lineParts (pyStrip line)).getD 2 "",
         followUp := "无" }] := by
  have hcnt := length_lineParts_pyStrip line
  rw [parse_response_single hnl, if_pos (lineFilter_eq_true_of (by omega)),
    lineToRecord_of_ge3 (by omega)]
  simp [lineRecord, h3]

/-- Witness for the amended C2 at a concrete three-field line. -/
theorem parse_eq3_followUp_sentinel_witness :
    parse_response "Q1 | summary text | 充分" =
      [{ question := "Q1", summary := "summary text", coverage := "充分",
         followUp := "无" }] :=
  (parse_eq3_followUp_sentinel "Q1 | summary text | 充分" (by decide)
    (by decide)).trans (by decide)

/-- C3: a reply line that is blank after trimming, has no `'|'`, or splits
into at most two trimmed fields (which covers all three of the claim's
cases, including one delimiter with an empty second field) yields no record
and no failure. -/
theorem parse_le2_line_dropped (line : String) (hnl : '\n' ∉ line.data)
    (h : (lineParts (pyStrip line)).length ≤ 2) :
    parse_response line = [] := by
  rw [parse_response_single hnl]
  cases hf : lineFilter line
  · simp
  · simp [lineToRecord_of_le2 h]

/-- Witness for C3 at a line with one delimiter and an empty second field. -/
theorem parse_le2_line_dropped_witness :
    parse_response "a|" = [] :=
  parse_le2_line_dropped "a|" (by decide) (by decide)

/-- C4 counterexample: a parsed record can carry an empty coverage cell
(here from a three-field line whose third field is blank), so the claimed
invariant "every record has non-empty coverage text" fails. -/
theorem parse_coverage_can_be_empty :
    ¬ (∀ r ∈ parse_response "q | s |", r.coverage ≠ "") := by
  decide

/-- C4 amended: every record produced by `parse_response` is built from
some line with at least three trimmed fields — it always has a summary
field (field 2) and its follow-up is never absent, being the sentinel
`"无"` when there are exactly three fields and field 4 otherwise; the
coverage cell is field 3 as given, possibly empty. -/
theorem parse_record_field_provenance (response : String)
    (r : CoverageRecord) (hr : r ∈ parse_response response) :
    ∃ line : String, 3 ≤ (lineParts line).length ∧
      r.question = (lineParts line).getD 0 "" ∧
      r.summary = (lineParts line).getD 1 "" ∧
      r.coverage = (lineParts line).getD 2 "" ∧
      ((lineParts line).length = 3 → r.followUp = "无") ∧
      (4 ≤ (lineParts line).length →
        r.followUp = (lineParts line).getD 3 "") := by
  unfold parse_response at hr
  obtain ⟨line, hline, hsome⟩ := List.mem_filterMap.mp hr
  refine ⟨line, ?_⟩
  by_cases h4 : 4 ≤ (lineParts line).length
  · simp only [lineToRecord, if_pos h4] at hsome
    obtain rfl := Option.some.inj hsome
    refine ⟨by omega, rfl, rfl, rfl, fun h3 => by omega, fun _ => rfl⟩
  · by_cases h3 : (lineParts line).length = 3
    · simp only [lineToRecord, if_neg h4, if_pos h3] at hsome
      obtain rfl := Option.some.inj hsome
      exact ⟨by omega, rfl, rfl, rfl, fun _ => rfl, fun hh => by omega⟩
    · simp [lineToRecord, h4, h3] at hsome

/-- Witness for the amended C4 at a concrete three-field line. -/
theorem parse_record_field_provenance_witness :
    ∃ line : String, 3 ≤ (lineParts line).length ∧
      (CoverageRecord.mk "a" "b" "c" "无").question =
        (lineParts line).getD 0 "" ∧
      (CoverageRecord.mk "a" "b" "c" "无").summary =
        (lineParts line).getD 1 "" ∧
      (CoverageRecord.mk "a" "b" "c" "无").coverage =
        (lineParts line).getD 2 "" ∧
      ((lineParts line).length = 3 →
        (CoverageRecord.mk "a" "b" "c" "无").followUp = "无") ∧
      (4 ≤ (lineParts line).length →
        (CoverageRecord.mk "a" "b" "c" "无").followUp =
          (lineParts line).getD 3 "") :=
  parse_record_field_provenance "a|b|c" (CoverageRecord.mk "a" "b" "c" "无")
    (by decide)

/-- C5: the displayed metrics are the report length and the exact-match
counts of the labels `"充分"` and `"未覆盖"`; a record whose coverage cell
is any other string (different case, extra spaces, anything unrecognized)
changes the total but neither label count. -/
theorem summarize_exact_label_counts (report : List CoverageRecord) :
    (summarize report).total = report.length ∧
    (summarize report).fullCount =
      report.countP (fun r => r.coverage == "充分") ∧
    (summarize report).noneCount =
      report.countP (fun r => r.coverage == "未覆盖") ∧
    ∀ r : CoverageRecord, r.coverage ≠ "充分" → r.coverage ≠ "未覆盖" →
      summarize (report ++ [r]) =
        { total := (summarize report).total + 1,
          fullCount := (summarize report).fullCount,
          noneCount := (summarize report).noneCount } := by
  refine ⟨rfl, (List.countP_eq_length_filter _ _).symm,
    (List.countP_eq_length_filter _ _).symm, ?_⟩
  intro r h1 h2
  simp [summarize, coverage_counts, List.filter_append, h1, h2]

/-- Witness for C5: the spec's own example report, extended with an
unrecognized label that counts toward neither bucket. -/
theorem summarize_exact_label_counts_witness :
    summarize ([CoverageRecord.mk "q1" "s" "充分" "无",
        CoverageRecord.mk "q2" "s" "充分" "f",
        CoverageRecord.mk "q3" "s" "部分" "f",
        CoverageRecord.mk "q4" "s" "未覆盖" "f"] ++
        [CoverageRecord.mk "q5" "s" "其他" "f"]) =
      { total := 5, fullCount := 2, noneCount := 1 } := by
  have h := (summarize_exact_label_counts
    [CoverageRecord.mk "q1" "s" "充分" "无",
     CoverageRecord.mk "q2" "s" "充分" "f",
     CoverageRecord.mk "q3" "s" "部分" "f",
     CoverageRecord.mk "q4" "s" "未覆盖" "f"]).2.2.2
    (CoverageRecord.mk "q5" "s" "其他" "f") (by decide) (by decide)
  exact h.trans (by decide)

/-- C6 counterexample: with both files present and a key set, an interview
file whose extraction failed (error shown, empty text returned) does not
halt the pipeline — the remote call is still issued and the outline
questions are committed to the session state. -/
theorem submit_extract_failure_still_calls_remote :
    Msg.errFileProcessing ∈
      (submit_handler (some ⟨"", true⟩) (some ⟨"q1", false⟩) "k" none
        ⟨false, none, "", []⟩).2.1 ∧
    (submit_handler (some ⟨"", true⟩) (some ⟨"q1", false⟩) "k" none
      ⟨false, none, "", []⟩).2.2 = true ∧
    (submit_handler (some ⟨"", true⟩) (some ⟨"q1", false⟩) "k" none
      ⟨false, none, "", []⟩).1.outline_questions ≠ [] := by
  decide

/-- C6 amended: on an extraction failure a user-visible error message is
surfaced, but the pipeline does not halt: the (possibly empty) extracted
text and the outline questions are committed to the session state and the
remote model call is still issued. -/
theorem submit_extract_failure_reports_and_continues
    (iv ov : ExtractOutcome) (key : String) (remote : Option String)
    (s : SessionState) (hkey : key ≠ "") (hiv : iv.errored = true) :
    Msg.errFileProcessing ∈
      (submit_handler (some iv) (some ov) key remote s).2.1 ∧
    (submit_handler (some iv) (some ov) key remote s).2.2 = true ∧
    (submit_handler (some iv) (some ov) key remote s).1.interview_text =
      iv.text ∧
    (submit_handler (some iv) (some ov) key remote s).1.outline_questions =
      extract_questions_from_outline ov.text := by
  unfold submit_handler analyze_with_deepseek extract_msgs
  cases remote <;> simp [hkey, hiv]

/-- Witness for the amended C6 at a concrete failing extraction. -/
theorem submit_extract_failure_reports_and_continues_witness :
    Msg.errFileProcessing ∈
      (submit_handler (some ⟨"", true⟩) (some ⟨"q1", false⟩) "k"
        (some "a|b|c") ⟨false, none, "", []⟩).2.1 ∧
    (submit_handler (some ⟨"", true⟩) (some ⟨"q1", false⟩) "k"
      (some "a|b|c") ⟨false, none, "", []⟩).2.2 = true ∧
    (submit_handler (some ⟨"", true⟩) (some ⟨"q1", false⟩) "k"
      (some "a|b|c") ⟨false, none, "", []⟩).1.interview_text =
      (ExtractOutcome.mk "" true).text ∧
    (submit_handler (some ⟨"", true⟩) (some ⟨"q1", false⟩) "k"
      (some "a|b|c") ⟨false, none, "", []⟩).1.outline_questions =
      extract_questions_from_outline (ExtractOutcome.mk "q1" false).text :=
  submit_extract_failure_reports_and_continues ⟨"", true⟩ ⟨"q1", false⟩ "k"
    (some "a|b|c") ⟨false, none, "", []⟩ (by decide) rfl

/-- C7: the outline splitter applied to the newline-join of any sequence of
non-empty, whitespace-free strings returns exactly that sequence. -/
theorem split_join_roundtrip (qs : List String)
    (h : ∀ q ∈ qs, q ≠ "" ∧ ∀ c ∈ q.data, pyIsSpace c = false) :
    extract_questions_from_outline (pyJoin '\n' qs) = qs := by
  cases qs with
  | nil => decide
  | cons q qt =>
    have hnl : ∀ x ∈ q :: qt, '\n' ∉ x.data := by
      intro x hx hc
      exact absurd ((h x hx).2 '\n' hc) (by decide)
    have hstrip : ∀ x ∈ q :: qt, pyStrip x = x :=
      fun x hx => pyStrip_eq_self (h x hx).2
    unfold extract_questions_from_outline
    rw [pySplit_pyJoin (by simp) hnl]
    rw [List.filter_eq_self.mpr
      (fun x hx => by rw [hstrip x hx]; exact bne_iff_ne.mpr (h x hx).1)]
    exact (List.map_congr_left hstrip).trans (List.map_id _)

/-- Witness for C7 at a concrete clean question list. -/
theorem split_join_roundtrip_witness :
    extract_questions_from_outline (pyJoin '\n' ["q1", "q2"]) = ["q1", "q2"] :=
  split_join_roundtrip ["q1", "q2"] (by decide)

/-- C8: `parse_response` yields exactly one record, in reply order, for
each line that is non-blank after trimming and has at least two `'|'`
occurrences; the report length is the number of such lines, and the empty
reply gives the empty report. -/
theorem parse_one_record_per_valid_line (response : String) :
    parse_response response =
      ((pySplit response '\n').filter
        (fun line => pyStrip line != "" &&
          decide (2 ≤ line.data.count '|'))).map
        (fun line => lineRecord (pyStrip line)) ∧
    (parse_response response).length =
      ((pySplit response '\n').filter
        (fun line => pyStrip line != "" &&
          decide (2 ≤ line.data.count '|'))).length ∧
    parse_response "" = [] := by
  have h1 : parse_response response =
      ((pySplit response '\n').filter
        (fun line => pyStrip line != "" &&
          decide (2 ≤ line.data.count '|'))).map
        (fun line => lineRecord (pyStrip line)) := by
    unfold parse_response
    exact parse_lines_eq (pySplit response '\n')
  refine ⟨h1, ?_, by decide⟩
  rw [h1, List.length_map]

/-- C9: the follow-up sentinel is applied by field count only — a line with
exactly four trimmed fields whose fourth field is empty yields a record
whose follow-up is the empty string, not the sentinel `"无"`. -/
theorem parse_four_fields_empty_followUp (line : String)
    (hnl : '\n' ∉ line.data)
    (h4 : (lineParts (pyStrip line)).length = 4)
    (hlast : (lineParts (pyStrip line)).getD 3 "" = "") :
    parse_response line =
      [{ question := (lineParts (pyStrip line)).getD 0 "",
         summary := (lineParts (pyStrip line)).getD 1 "",
         coverage := (lineParts (pyStrip line)).getD 2 "",
         followUp := "" }] ∧ ("" : String) ≠ "无" := by
  refine ⟨?_, by decide⟩
  have hcnt := length_lineParts_pyStrip line
  rw [parse_response_single hnl, if_pos (lineFilter_eq_true_of (by omega)),
    lineToRecord_of_ge3 (by omega)]
  have hrec : lineRecord (pyStrip line) =
      { question := (lineParts (pyStrip line)).getD 0 "",
        summary := (lineParts (pyStrip line)).getD 1 "",
        coverage := (lineParts (pyStrip line)).getD 2 "",
        followUp := "" } := by
    unfold lineRecord
    rw [if_pos (by omega : 4 ≤ (lineParts (pyStrip line)).length), hlast]
  rw [hrec]
  rfl

/-- Witness for C9 at a line ending in a trailing delimiter. -/
theorem parse_four_fields_empty_followUp_witness :
    (parse_response "q | s | 充分 |" =
      [{ question := "q", summary := "s", coverage := "充分",
         followUp := "" }] ∧ ("" : String) ≠ "无") := by
  have h := parse_four_fields_empty_followUp "q | s | 充分 |" (by decide)
    (by decide) (by decide)
  exact ⟨h.1.trans (by decide), h.2⟩

/-- C10: the response parser and the outline splitter are total — their
exception-aware embeddings, in which every fallible Python operation (the
guarded field indexings) is threaded through `Except`, succeed on every
input string with the pure results. -/
theorem parse_and_split_never_raise (s : String) :
    parse_response_checked s = .ok (parse_response s) ∧
    extract_questions_checked s = .ok (extract_questions_from_outline s) := by
  refine ⟨?_, rfl⟩
  unfold parse_response_checked parse_response
  exact parse_lines_checked_eq _

end Chat
